import Mathlib

/-!
Verification development for the favourites service:
asset model and validation, JSON (de)serialization of asset payloads,
the two favourites-store backends (PostgreSQL-backed and in-memory mock),
the JWT authentication gate and the request middleware pipeline.

Times are modelled as natural numbers (nanoseconds since epoch); Go byte
lengths of strings are modelled with `String.utf8ByteSize`; Go
`strings.TrimSpace` is modelled with `trimSpace` below.
-/

namespace Favourites

/-- JSON values, as produced/consumed by Go `encoding/json`.
Objects are association lists (Go maps are canonically key-sorted on
marshal; we keep whatever order the encoder emits). Numbers are restricted
to the integral fragment, which covers every number this service encodes. -/
inductive Json where
  | null
  | bool (b : Bool)
  | num (n : Int)
  | str (s : String)
  | arr (xs : List Json)
  | obj (fields : List (String × Json))

/-- models.AssetType -/
inductive AssetType where
  | chart
  | insight
  | audience
deriving DecidableEq

/-- models.Chart. `data` models the Go field `Data map[string]any`
(`none` is the nil map, which marshals to JSON null). -/
structure Chart where
  id : String
  title : String
  xAxisTitle : String
  yAxisTitle : String
  data : Option (List (String × Json))

/-- models.Insight -/
structure Insight where
  id : String
  text : String

/-- models.Audience -/
structure Audience where
  id : String
  gender : List String
  birthCountry : List String
  ageGroups : List String
  socialMediaHoursDaily : String
  purchasesLastMonth : Int

/-- models.Asset: the closed set of asset variants (a Go interface
implemented by exactly the three structs, used as a tagged union). -/
inductive Asset where
  | chart (c : Chart)
  | insight (i : Insight)
  | audience (a : Audience)

/-- Asset.GetID -/
def Asset.GetID : Asset → String
  | .chart c => c.id
  | .insight i => i.id
  | .audience a => a.id

/-- Asset.GetType -/
def Asset.GetType : Asset → AssetType
  | .chart _ => .chart
  | .insight _ => .insight
  | .audience _ => .audience

/-- models.FavouriteAsset. Timestamps are Nats. -/
structure FavouriteAsset where
  id : String
  userID : String
  assetType : AssetType
  description : String
  createdAt : Nat
  updatedAt : Nat
  data : Asset

/- ## Validation (internal/handlers/validation) -/

def maxStringLength : Nat := 255

def validGenders : List String := ["Male", "Female"]
def validAgeGroups : List String := ["18-24", "25-34", "35-44", "45-54", "55+"]
def validSocialMediaHours : List String := ["0-1", "1-3", "3-5", "5+"]

/-- handlers.ValidationError: a list of field-level validation errors. -/
structure ValidationError where
  errors : List String
deriving DecidableEq

/-- handlers.validate: runs every check, collects every non-empty message,
and returns a ValidationError iff at least one check failed.
(The Go version takes thunks; here the checks are the computed messages.) -/
def validate (checks : List String) : Option ValidationError :=
  let errs := checks.filter (fun m => m ≠ "")
  if errs.isEmpty then none else some ⟨errs⟩

/-- The ASCII fragment of Go unicode.IsSpace (space, tab, newline,
vertical tab, form feed, carriage return). -/
def isGoSpace (c : Char) : Bool :=
  c == ' ' || c == '\t' || c == '\n' || c == '\r' ||
    c == Char.ofNat 11 || c == Char.ofNat 12

/-- Go strings.TrimSpace: strip leading and trailing whitespace. -/
def trimSpace (s : String) : String :=
  ⟨((s.data.dropWhile isGoSpace).reverse.dropWhile isGoSpace).reverse⟩

/-- handlers.requireNonEmpty -/
def requireNonEmpty (field value : String) : String :=
  if trimSpace value = "" then field ++ " is required" else ""

/-- handlers.checkMaxLength (Go `len` is the byte length) -/
def checkMaxLength (field value : String) (max : Nat) : String :=
  if max < value.utf8ByteSize then
    field ++ " exceeds maximum length of " ++ toString max
  else ""

/-- handlers.checkInList -/
def checkInList (field value : String) (allowed : List String) : String :=
  if allowed.contains value then ""
  else field ++ " has invalid value " ++ value ++ " (allowed: " ++ String.intercalate ", " allowed ++ ")"

/-- handlers.checkNonNegative -/
def checkNonNegative (field : String) (value : Int) : String :=
  if value < 0 then field ++ " must not be negative" else ""

/-- The list of check messages assembled by handlers.validateChart. -/
def chartChecks (c : Chart) : List String :=
  [ requireNonEmpty "id" c.id,
    checkMaxLength "id" c.id maxStringLength,
    requireNonEmpty "title" c.title,
    checkMaxLength "title" c.title maxStringLength,
    requireNonEmpty "x_axis_title" c.xAxisTitle,
    checkMaxLength "x_axis_title" c.xAxisTitle maxStringLength,
    requireNonEmpty "y_axis_title" c.yAxisTitle,
    checkMaxLength "y_axis_title" c.yAxisTitle maxStringLength ]

/-- handlers.validateChart -/
def validateChart (c : Chart) : Option ValidationError :=
  validate (chartChecks c)

/-- The list of check messages assembled by handlers.validateInsight. -/
def insightChecks (i : Insight) : List String :=
  [ requireNonEmpty "id" i.id,
    checkMaxLength "id" i.id maxStringLength,
    requireNonEmpty "text" i.text,
    checkMaxLength "text" i.text maxStringLength ]

/-- handlers.validateInsight -/
def validateInsight (i : Insight) : Option ValidationError :=
  validate (insightChecks i)

/-- The list of check messages assembled by handlers.validateAudience
(required id and non-negative purchases, then one membership or
non-emptiness check per provided list element, then the optional
social-media-hours membership check). -/
def audienceChecks (a : Audience) : List String :=
  [ requireNonEmpty "id" a.id,
    checkMaxLength "id" a.id maxStringLength,
    checkNonNegative "purchases_last_month" a.purchasesLastMonth ]
  ++ a.gender.enum.map (fun p =>
      checkInList ("gender[" ++ toString p.1 ++ "]") p.2 validGenders)
  ++ a.birthCountry.enum.map (fun p =>
      requireNonEmpty ("birth_country[" ++ toString p.1 ++ "]") p.2)
  ++ a.ageGroups.enum.map (fun p =>
      checkInList ("age_groups[" ++ toString p.1 ++ "]") p.2 validAgeGroups)
  ++ (if a.socialMediaHoursDaily ≠ "" then
        [checkInList "social_media_hours_daily" a.socialMediaHoursDaily validSocialMediaHours]
      else [])

/-- handlers.validateAudience -/
def validateAudience (a : Audience) : Option ValidationError :=
  validate (audienceChecks a)

/-- handlers.validateAsset: dispatches on the concrete asset variant. -/
def validateAsset : Asset → Option ValidationError
  | .chart c => validateChart c
  | .insight i => validateInsight i
  | .audience a => validateAudience a

/-- handlers.validateDescription (used by UpdateDescription only). -/
def validateDescription (description : String) : Option ValidationError :=
  validate
    [ requireNonEmpty "description" description,
      checkMaxLength "description" description maxStringLength ]

/- ## JSON (de)serialization of asset payloads
(internal/database/favourites_postgres.go together with Go encoding/json
semantics for the three asset structs and their field tags). -/

/-- Go json.Marshal of a Chart: object with the tagged fields in struct
order; a nil Data map marshals to null. -/
def marshalChart (c : Chart) : Json :=
  .obj [ ("id", .str c.id),
         ("title", .str c.title),
         ("x_axis_title", .str c.xAxisTitle),
         ("y_axis_title", .str c.yAxisTitle),
         ("data", match c.data with
                  | none => .null
                  | some l => .obj l) ]

/-- Go json.Marshal of an Insight. -/
def marshalInsight (i : Insight) : Json :=
  .obj [ ("id", .str i.id), ("text", .str i.text) ]

/-- Go json.Marshal of a []string (nil and empty both modelled as the
empty list; both round-trip in Go). -/
def marshalStrList (l : List String) : Json :=
  .arr (l.map .str)

/-- Go json.Marshal of an Audience. -/
def marshalAudience (a : Audience) : Json :=
  .obj [ ("id", .str a.id),
         ("gender", marshalStrList a.gender),
         ("birth_country", marshalStrList a.birthCountry),
         ("age_groups", marshalStrList a.ageGroups),
         ("social_media_hours_daily", .str a.socialMediaHoursDaily),
         ("purchases_last_month", .num a.purchasesLastMonth) ]

/-- json.Marshal(favourite.Data): dispatch on the concrete variant. -/
def marshalAsset : Asset → Json
  | .chart c => marshalChart c
  | .insight i => marshalInsight i
  | .audience a => marshalAudience a

/-- Go json.Unmarshal semantics for a string struct field: absent or null
leaves the zero value, a JSON string is taken, anything else errors. -/
def getStr (fields : List (String × Json)) (k : String) : Except String String :=
  match fields.lookup k with
  | none => .ok ""
  | some .null => .ok ""
  | some (.str s) => .ok s
  | some _ => .error ("cannot unmarshal field " ++ k ++ " into string")

/-- Go json.Unmarshal semantics for an int struct field. -/
def getInt (fields : List (String × Json)) (k : String) : Except String Int :=
  match fields.lookup k with
  | none => .ok 0
  | some .null => .ok 0
  | some (.num n) => .ok n
  | some _ => .error ("cannot unmarshal field " ++ k ++ " into int")

/-- Go json.Unmarshal of a JSON value into a string slice element. -/
def decodeStrElems : List Json → Except String (List String)
  | [] => .ok []
  | .str s :: rest => (decodeStrElems rest).map (fun l => s :: l)
  | .null :: rest => (decodeStrElems rest).map (fun l => "" :: l)
  | _ => .error "cannot unmarshal array element into string"

/-- Go json.Unmarshal semantics for a []string struct field. -/
def getStrList (fields : List (String × Json)) (k : String) : Except String (List String) :=
  match fields.lookup k with
  | none => .ok []
  | some .null => .ok []
  | some (.arr xs) => decodeStrElems xs
  | some _ => .error ("cannot unmarshal field " ++ k ++ " into []string")

/-- Go json.Unmarshal semantics for a map[string]any struct field. -/
def getObjOpt (fields : List (String × Json)) (k : String) :
    Except String (Option (List (String × Json))) :=
  match fields.lookup k with
  | none => .ok none
  | some .null => .ok none
  | some (.obj l) => .ok (some l)
  | some _ => .error ("cannot unmarshal field " ++ k ++ " into map")

/-- Go json.Unmarshal into a Chart (JSON null leaves the zero value,
matching Go; extra object keys are ignored). -/
def decodeChart : Json → Except String Chart
  | .null => .ok ⟨"", "", "", "", none⟩
  | .obj fields => do
      let id ← getStr fields "id"
      let title ← getStr fields "title"
      let x ← getStr fields "x_axis_title"
      let y ← getStr fields "y_axis_title"
      let d ← getObjOpt fields "data"
      .ok ⟨id, title, x, y, d⟩
  | _ => .error "cannot unmarshal into Chart"

/-- Go json.Unmarshal into an Insight. -/
def decodeInsight : Json → Except String Insight
  | .null => .ok ⟨"", ""⟩
  | .obj fields => do
      let id ← getStr fields "id"
      let text ← getStr fields "text"
      .ok ⟨id, text⟩
  | _ => .error "cannot unmarshal into Insight"

/-- Go json.Unmarshal into an Audience. -/
def decodeAudience : Json → Except String Audience
  | .null => .ok ⟨"", [], [], [], "", 0⟩
  | .obj fields => do
      let id ← getStr fields "id"
      let g ← getStrList fields "gender"
      let bc ← getStrList fields "birth_country"
      let ag ← getStrList fields "age_groups"
      let smh ← getStr fields "social_media_hours_daily"
      let plm ← getInt fields "purchases_last_month"
      .ok ⟨id, g, bc, ag, smh, plm⟩
  | _ => .error "cannot unmarshal into Audience"

/-- database.unmarshalAssetData: deserialises the stored blob into the
correct Asset implementation based on the asset_type column. -/
def unmarshalAssetData (assetType : AssetType) (data : Json) : Except String Asset :=
  match assetType with
  | .chart => (decodeChart data).map .chart
  | .insight => (decodeInsight data).map .insight
  | .audience => (decodeAudience data).map .audience

/-- Decoding a marshalled string list recovers the original list. -/
lemma decodeStrElems_map (l : List String) :
    decodeStrElems (l.map Json.str) = .ok l := by
  induction l with
  | nil => rfl
  | cons h t ih => simp [decodeStrElems, ih, Except.map]

/-- Serialization round-trip: unmarshalling a marshalled asset under its
own type tag recovers the asset. -/
lemma unmarshal_marshal (a : Asset) :
    unmarshalAssetData a.GetType (marshalAsset a) = .ok a := by
  cases a with
  | chart c =>
      obtain ⟨id, title, x, y, d⟩ := c
      cases d <;> rfl
  | insight i => rfl
  | audience au =>
      obtain ⟨id, g, bc, ag, smh, plm⟩ := au
      simp [unmarshalAssetData, marshalAsset, marshalAudience, decodeAudience,
            getStr, getStrList, getInt, marshalStrList, List.lookup,
            decodeStrElems_map, Except.map, Asset.GetType, Except.bind]
      rfl

/- ## Favourites stores -/

/-- database.ErrNotFound / database.ErrAlreadyExists, plus the
scan/unmarshal failure path of the relational backend. -/
inductive RepoErr where
  | notFound
  | alreadyExists
  | badData (msg : String)
deriving DecidableEq

/-- Replace the binding of `k` (Go map assignment `m[k] = v`); a new key
is appended, standing for one admissible Go map iteration order. -/
def assocSet {α β : Type} [BEq α] (k : α) (v : β) : List (α × β) → List (α × β)
  | [] => [(k, v)]
  | (k', v') :: rest => if k' == k then (k, v) :: rest else (k', v') :: assocSet k v rest

/-- Remove the binding of `k` (Go `delete(m, k)`). -/
def assocErase {α β : Type} [BEq α] (k : α) : List (α × β) → List (α × β)
  | [] => []
  | (k', v') :: rest => if k' == k then rest else (k', v') :: assocErase k rest

/-- The state of database.MockRepository: the nested map
user → assetID → record, as nested association lists whose order stands
for one admissible (unspecified) Go map iteration order. -/
abbrev MockStore : Type := List (String × List (String × FavouriteAsset))

namespace MockRepository

/-- MockRepository.GetUserFavouritesFromDB: returns the user's records in
map iteration order, the empty list for an unknown user; never an error. -/
def GetUserFavouritesFromDB (r : MockStore) (userID : String) : List FavouriteAsset :=
  match List.lookup userID r with
  | none => []
  | some m => m.map Prod.snd

/-- MockRepository.GetFavouriteFromDB -/
def GetFavouriteFromDB (r : MockStore) (userID assetID : String) :
    Except RepoErr FavouriteAsset :=
  match List.lookup userID r with
  | none => .error .notFound
  | some m =>
    match List.lookup assetID m with
    | none => .error .notFound
    | some fav => .ok fav

/-- MockRepository.AddFavouriteInDB: under the store-wide lock, creates
the inner map if needed, fails with AlreadyExists when the composite key
is present (leaving the store unchanged), otherwise inserts. -/
def AddFavouriteInDB (r : MockStore) (fav : FavouriteAsset) :
    Option RepoErr × MockStore :=
  let m := (List.lookup fav.userID r).getD []
  match List.lookup fav.id m with
  | some _ => (some .alreadyExists, r)
  | none => (none, assocSet fav.userID (assocSet fav.id fav m) r)

/-- MockRepository.UpdateFavouriteInDB -/
def UpdateFavouriteInDB (r : MockStore) (fav : FavouriteAsset) :
    Option RepoErr × MockStore :=
  match List.lookup fav.userID r with
  | none => (some .notFound, r)
  | some m =>
    match List.lookup fav.id m with
    | none => (some .notFound, r)
    | some _ => (none, assocSet fav.userID (assocSet fav.id fav m) r)

/-- MockRepository.DeleteFavouriteFromDB -/
def DeleteFavouriteFromDB (r : MockStore) (userID assetID : String) :
    Option RepoErr × MockStore :=
  match List.lookup userID r with
  | none => (some .notFound, r)
  | some m =>
    match List.lookup assetID m with
    | none => (some .notFound, r)
    | some _ => (none, assocSet userID (assocErase assetID m) r)

end MockRepository

/-- One row of the `favourites` table
(PRIMARY KEY (user_id, id); data is the JSONB payload). -/
structure Row where
  id : String
  userID : String
  assetType : AssetType
  description : String
  data : Json
  createdAt : Nat
  updatedAt : Nat

/-- The state of the relational backend: the rows of the `favourites`
table. -/
abbrev PgStore : Type := List Row

/-- The WHERE clause `user_id = $1 AND id = $2`. -/
def matchKey (userID assetID : String) (row : Row) : Bool :=
  row.userID == userID && row.id == assetID

/-- Insertion, descending by created_at, used to model
`ORDER BY created_at DESC` (ties in any order). -/
def insertByCreatedDesc (row : Row) : List Row → List Row
  | [] => [row]
  | x :: xs =>
      if row.createdAt ≤ x.createdAt then x :: insertByCreatedDesc row xs
      else row :: x :: xs

/-- The result set of `ORDER BY created_at DESC`. -/
def sortByCreatedDesc (l : List Row) : List Row :=
  l.foldr insertByCreatedDesc []

/-- database.scanFavourite: reads one row and reconstructs the asset from
the JSONB blob via the type tag. -/
def scanFavourite (row : Row) : Except RepoErr FavouriteAsset :=
  match unmarshalAssetData row.assetType row.data with
  | .error e => .error (.badData e)
  | .ok asset =>
      .ok { id := row.id, userID := row.userID, assetType := row.assetType,
            description := row.description, createdAt := row.createdAt,
            updatedAt := row.updatedAt, data := asset }

/-- The `for rows.Next() { scanFavourite; append }` loop of
GetUserFavouritesFromDB: scan every row in result-set order, stopping at
the first scan error. -/
def scanAll : List Row → Except RepoErr (List FavouriteAsset)
  | [] => .ok []
  | row :: rest =>
    match scanFavourite row with
    | .error e => .error e
    | .ok fav =>
      match scanAll rest with
      | .error e => .error e
      | .ok favs => .ok (fav :: favs)

namespace PostgresRepository

/-- PostgresRepository.GetUserFavouritesFromDB:
`SELECT ... WHERE user_id = $1 ORDER BY created_at DESC`, scanning every
row (an empty result set yields the empty list, not an error). -/
def GetUserFavouritesFromDB (r : PgStore) (userID : String) :
    Except RepoErr (List FavouriteAsset) :=
  scanAll (sortByCreatedDesc (r.filter (fun row => row.userID == userID)))

/-- PostgresRepository.GetFavouriteFromDB:
`SELECT ... WHERE user_id = $1 AND id = $2` (first matching row;
sql.ErrNoRows becomes ErrNotFound). -/
def GetFavouriteFromDB (r : PgStore) (userID assetID : String) :
    Except RepoErr FavouriteAsset :=
  match r.find? (matchKey userID assetID) with
  | none => .error .notFound
  | some row => scanFavourite row

/-- PostgresRepository.AddFavouriteInDB: `INSERT INTO favourites ...`;
the engine's PRIMARY KEY (user_id, id) constraint makes the
present-check and insert one atomic step, surfacing a unique violation
(PG 23505) as ErrAlreadyExists with no row written. -/
def AddFavouriteInDB (r : PgStore) (fav : FavouriteAsset) :
    Option RepoErr × PgStore :=
  if r.any (matchKey fav.userID fav.id) then (some .alreadyExists, r)
  else
    (none, r ++ [{ id := fav.id, userID := fav.userID, assetType := fav.assetType,
                   description := fav.description, data := marshalAsset fav.data,
                   createdAt := fav.createdAt, updatedAt := fav.updatedAt }])

/-- PostgresRepository.UpdateFavouriteInDB:
`UPDATE favourites SET description = $1, data = $2, updated_at = $3
WHERE user_id = $4 AND id = $5`; zero affected rows becomes ErrNotFound. -/
def UpdateFavouriteInDB (r : PgStore) (fav : FavouriteAsset) :
    Option RepoErr × PgStore :=
  if r.any (matchKey fav.userID fav.id) then
    (none, r.map (fun row =>
      if matchKey fav.userID fav.id row then
        { row with description := fav.description, data := marshalAsset fav.data,
                   updatedAt := fav.updatedAt }
      else row))
  else (some .notFound, r)

/-- PostgresRepository.DeleteFavouriteFromDB:
`DELETE FROM favourites WHERE user_id = $1 AND id = $2`; zero affected
rows becomes ErrNotFound. -/
def DeleteFavouriteFromDB (r : PgStore) (userID assetID : String) :
    Option RepoErr × PgStore :=
  if r.any (matchKey userID assetID) then
    (none, r.filter (fun row => !(matchKey userID assetID row)))
  else (some .notFound, r)

end PostgresRepository

/- ## Handlers (internal/handlers/handlers.go) -/

/-- database.FavouritesRepository: the interface both backends implement. -/
structure FavouritesRepository (σ : Type) where
  GetUserFavouritesFromDB : σ → String → Except RepoErr (List FavouriteAsset)
  GetFavouriteFromDB : σ → String → String → Except RepoErr FavouriteAsset
  AddFavouriteInDB : σ → FavouriteAsset → Option RepoErr × σ
  UpdateFavouriteInDB : σ → FavouriteAsset → Option RepoErr × σ
  DeleteFavouriteFromDB : σ → String → String → Option RepoErr × σ

/-- The mock backend as a FavouritesRepository. -/
def mockRepo : FavouritesRepository MockStore where
  GetUserFavouritesFromDB r u := .ok (MockRepository.GetUserFavouritesFromDB r u)
  GetFavouriteFromDB := MockRepository.GetFavouriteFromDB
  AddFavouriteInDB := MockRepository.AddFavouriteInDB
  UpdateFavouriteInDB := MockRepository.UpdateFavouriteInDB
  DeleteFavouriteFromDB := MockRepository.DeleteFavouriteFromDB

/-- The relational backend as a FavouritesRepository. -/
def pgRepo : FavouritesRepository PgStore where
  GetUserFavouritesFromDB := PostgresRepository.GetUserFavouritesFromDB
  GetFavouriteFromDB := PostgresRepository.GetFavouriteFromDB
  AddFavouriteInDB := PostgresRepository.AddFavouriteInDB
  UpdateFavouriteInDB := PostgresRepository.UpdateFavouriteInDB
  DeleteFavouriteFromDB := PostgresRepository.DeleteFavouriteFromDB

/-- Errors surfaced by the handler layer. -/
inductive HandlerErr where
  | validation (e : ValidationError)
  | repo (e : RepoErr)
deriving DecidableEq

/-- handlers.AddFavourite: validates the asset (and nothing else), builds
the record with created_at = updated_at = now, and stores it. -/
def AddFavourite {σ : Type} (repo : FavouritesRepository σ) (st : σ)
    (userID : String) (asset : Asset) (description : String) (now : Nat) :
    Option HandlerErr × σ :=
  match validateAsset asset with
  | some v => (some (.validation v), st)
  | none =>
    let favourite : FavouriteAsset :=
      { id := asset.GetID, userID := userID, assetType := asset.GetType,
        description := description, createdAt := now, updatedAt := now,
        data := asset }
    match repo.AddFavouriteInDB st favourite with
    | (some e, st') => (some (.repo e), st')
    | (none, st') => (none, st')

/-- handlers.UpdateDescription: validates the new description, fetches
the record, replaces description and updated_at, writes it back. -/
def UpdateDescription {σ : Type} (repo : FavouritesRepository σ) (st : σ)
    (userID assetID description : String) (now : Nat) :
    Option HandlerErr × σ :=
  match validateDescription description with
  | some v => (some (.validation v), st)
  | none =>
    match repo.GetFavouriteFromDB st userID assetID with
    | .error e => (some (.repo e), st)
    | .ok favourite =>
      let favourite' := { favourite with description := description, updatedAt := now }
      match repo.UpdateFavouriteInDB st favourite' with
      | (some e, st') => (some (.repo e), st')
      | (none, st') => (none, st')

/-- handlers.RemoveFavourite -/
def RemoveFavourite {σ : Type} (repo : FavouritesRepository σ) (st : σ)
    (userID assetID : String) : Option HandlerErr × σ :=
  match repo.DeleteFavouriteFromDB st userID assetID with
  | (some e, st') => (some (.repo e), st')
  | (none, st') => (none, st')

/-- handlers.GetUserFavourites -/
def GetUserFavourites {σ : Type} (repo : FavouritesRepository σ) (st : σ)
    (userID : String) : Except RepoErr (List FavouriteAsset) :=
  repo.GetUserFavouritesFromDB st userID

/- ## Authentication gate (internal/auth/auth.go) -/

/-- auth.AuthConfig -/
structure AuthConfig where
  secret : String
  allowUnsignedTokens : Bool

/-- A bearer token after base64/JSON decoding, abstracting the JWT wire
format: the declared header algorithm, the registered claims this service
reads, the exact byte string the signature is computed over, the signature
segment, and whether the three-segment structure itself parsed. -/
structure Token where
  alg : String
  sub : Option String
  exp : Option Nat
  signingInput : String
  signature : Option String
  structValid : Bool

/-- The distinct rejection modes of the gate. -/
inductive AuthErr where
  | lockedMode
  | invalidToken
  | wrongAlg
  | expired
  | missingSub
deriving DecidableEq

/-- auth.parseToken. `hmac` abstracts HMAC-SHA256: the gate only compares
the token's signature against `hmac secret signingInput`, never inspecting
the function itself. With an empty secret, jwt.ParseUnverified is used
(structure check and alg=none check, no signature and no claims
validation); otherwise jwt.Parse with WithValidMethods([HS256]) checks
structure, algorithm, signature, and expiry (valid iff now < exp). -/
def parseToken (hmac : String → String → String) (now : Nat)
    (tok : Token) (secret : String) : Option AuthErr :=
  if secret == "" then
    if !tok.structValid then some .invalidToken
    else if tok.alg != "none" then some .wrongAlg
    else none
  else
    if !tok.structValid then some .invalidToken
    else if tok.alg != "HS256" then some .wrongAlg
    else if tok.signature != some (hmac secret tok.signingInput) then some .invalidToken
    else match tok.exp with
      | some e => if now < e then none else some .expired
      | none => none

/-- auth.JWTMiddleware, from the point where a Bearer token has been
extracted: Locked check, parseToken, then the subject-claim check. On
success the subject is the authenticated user id. -/
def authenticate (hmac : String → String → String) (now : Nat)
    (cfg : AuthConfig) (tok : Token) : Except AuthErr String :=
  if cfg.secret == "" && !cfg.allowUnsignedTokens then .error .lockedMode
  else
    match parseToken hmac now tok cfg.secret with
    | some e => .error e
    | none =>
      match tok.sub with
      | none => .error .missingSub
      | some s => if s == "" then .error .missingSub else .ok s

/-- Whether the gate accepted the request. -/
def isAccepted : Except AuthErr String → Bool
  | .ok _ => true
  | .error _ => false

/- ## Request pipeline (internal/routes) -/

/-- Go substring scan (routes.findSubstring). -/
def hasSub : List Char → List Char → Bool
  | _, [] => true
  | [], _ :: _ => false
  | a :: s, sub => List.isPrefixOf sub (a :: s) || hasSub s sub

/-- routes.contains -/
def containsStr (s sub : String) : Bool :=
  decide (sub.length ≤ s.length) &&
    (s == sub || (decide (0 < s.length) && hasSub s.toList sub.toList))

/-- routes.acceptsJSON -/
def acceptsJSON (accept : String) : Bool :=
  accept == "*/*" || accept == "application/json" ||
    containsStr accept "application/json" || containsStr accept "*/*"

/-- routes.isJSONContentType -/
def isJSONContentType (contentType : String) : Bool :=
  contentType == "application/json" || containsStr contentType "application/json"

/-- HTTP methods routed under /api/v1/favourites. -/
inductive Method where
  | get
  | post
  | put
  | patch
  | delete
deriving DecidableEq

/-- An inbound favourites-route request as the middleware chain sees it. -/
structure Request where
  method : Method
  token : Token
  accept : String
  contentType : String

/-- The short-circuit outcome of the middleware chain. -/
inductive PipeResult where
  | unauthorized
  | tooManyRequests
  | notAcceptable
  | unsupportedMediaType
  | dispatched (userID : String)
deriving DecidableEq

/-- routes.RegisterFavouritesRoutes middleware chain, in registration
order: JWTMiddleware, then (when configured) per-user rate limiting keyed
by the sub claim, then acceptJSONMiddleware (406), then
contentTypeJSONMiddleware (415, POST/PUT/PATCH only), each short-circuiting.
`rateExceeded` abstracts httprate's rolling-window counter decision for
the keyed identity. -/
def pipeline (hmac : String → String → String) (now : Nat) (cfg : AuthConfig)
    (rateEnabled : Bool) (rateExceeded : String → Bool) (req : Request) :
    PipeResult :=
  match authenticate hmac now cfg req.token with
  | .error _ => .unauthorized
  | .ok userID =>
    if rateEnabled && rateExceeded userID then .tooManyRequests
    else if req.accept == "" || !acceptsJSON req.accept then .notAcceptable
    else if (req.method == .post || req.method == .put || req.method == .patch)
            && (req.contentType == "" || !isJSONContentType req.contentType) then
      .unsupportedMediaType
    else .dispatched userID

/- ## Sample values used by witnesses and counterexamples -/

/-- A fully valid chart. -/
def sampleChart : Chart := ⟨"c1", "Revenue", "Month", "USD", none⟩

/-- A chart with an empty title (one validation violation). -/
def badChart : Chart := ⟨"c1", "", "X", "Y", none⟩

/- ## Claims -/

/-- C1 (amended): for every create call, the asset is validated before any
persistence attempt, and the call fails with exactly that ValidationError
— persisting nothing, for any backend — when the asset is invalid; when
the asset is valid, no ValidationError is ever produced (in particular the
description is not validated on create). -/
theorem create_validates_asset_before_persisting {σ : Type}
    (repo : FavouritesRepository σ) (st : σ) (userID : String) (asset : Asset)
    (description : String) (now : Nat) :
    (∀ v, validateAsset asset = some v →
        AddFavourite repo st userID asset description now = (some (.validation v), st)) ∧
    (validateAsset asset = none →
        ∀ v, (AddFavourite repo st userID asset description now).1 ≠ some (.validation v)) := by
  constructor
  · intro v hv
    simp [AddFavourite, hv]
  · intro hv v
    simp only [AddFavourite, hv]
    rcases h : repo.AddFavouriteInDB st
        { id := asset.GetID, userID := userID, assetType := asset.GetType,
          description := description, createdAt := now, updatedAt := now,
          data := asset } with ⟨e, st'⟩
    cases e <;> simp

/-- Witness for C1's amended theorem: a concrete invalid chart is rejected
with its ValidationError and the store is untouched, and a concrete valid
chart with an empty description produces no ValidationError. -/
theorem create_validates_asset_before_persisting_witness :
    AddFavourite mockRepo ([] : MockStore) "u1" (.chart badChart) "d" 3 =
      (some (.validation ⟨["title is required"]⟩), []) ∧
    (AddFavourite mockRepo ([] : MockStore) "u1" (.chart sampleChart) "" 3).1 ≠
      some (.validation ⟨["description is required"]⟩) :=
  ⟨(create_validates_asset_before_persisting mockRepo [] "u1" (.chart badChart) "d" 3).1
      ⟨["title is required"]⟩ (by decide),
   (create_validates_asset_before_persisting mockRepo [] "u1" (.chart sampleChart) "" 3).2
      (by decide) ⟨["description is required"]⟩⟩

/-- C1 counterexample: the claim says a create with an invalid (here
empty) description fails with ValidationError; in fact the description is
invalid for update purposes, yet the create succeeds and persists the
record. -/
theorem create_does_not_validate_description :
    validateDescription "" ≠ none ∧
    (AddFavourite mockRepo ([] : MockStore) "u1" (.chart sampleChart) "" 5).1 = none ∧
    ((AddFavourite mockRepo ([] : MockStore) "u1" (.chart sampleChart) "" 5).2).length = 1 := by
  refine ⟨by decide, by decide, by decide⟩

/-- The error list validateChart collects. -/
def chartErrors (c : Chart) : List String :=
  (chartChecks c).filter (fun m => m ≠ "")

/-- The error list validateInsight collects. -/
def insightErrors (i : Insight) : List String :=
  (insightChecks i).filter (fun m => m ≠ "")

/-- The error list validateAudience collects. -/
def audienceErrors (a : Audience) : List String :=
  (audienceChecks a).filter (fun m => m ≠ "")

/-- When at least one check failed, validate returns the whole collected
error list. -/
lemma validate_eq_some (checks : List String)
    (h : checks.filter (fun m => m ≠ "") ≠ []) :
    validate checks = some ⟨checks.filter (fun m => m ≠ "")⟩ := by
  have hE : (checks.filter (fun m => m ≠ "")).isEmpty = false := by
    cases hF : checks.filter (fun m => m ≠ "") with
    | nil => exact absurd hF h
    | cons x xs => rfl
  simp only [validate, hE, Bool.false_eq_true, if_false]

/-- C7: validation reports every violated rule, not only the first: each
required-field violation contributes its named message to the returned
list regardless of the other fields, an invalid payload surfaces the whole
collected list in one ValidationError, and the all-empty Chart names
exactly its four missing required fields. -/
theorem validation_collects_all_violations (c : Chart) (i : Insight) (a : Audience) :
    (trimSpace c.id = "" → "id is required" ∈ chartErrors c) ∧
    (trimSpace c.title = "" → "title is required" ∈ chartErrors c) ∧
    (trimSpace c.xAxisTitle = "" → "x_axis_title is required" ∈ chartErrors c) ∧
    (trimSpace c.yAxisTitle = "" → "y_axis_title is required" ∈ chartErrors c) ∧
    (chartErrors c ≠ [] → validateChart c = some ⟨chartErrors c⟩) ∧
    (trimSpace i.id = "" → "id is required" ∈ insightErrors i) ∧
    (trimSpace i.text = "" → "text is required" ∈ insightErrors i) ∧
    (trimSpace a.id = "" → "id is required" ∈ audienceErrors a) ∧
    (a.purchasesLastMonth < 0 →
        "purchases_last_month must not be negative" ∈ audienceErrors a) ∧
    validateChart ⟨"", "", "", "", none⟩ =
      some ⟨["id is required", "title is required",
             "x_axis_title is required", "y_axis_title is required"]⟩ := by
  refine ⟨?_, ?_, ?_, ?_, ?_, ?_, ?_, ?_, ?_, by decide⟩
  · intro h; simp [chartErrors, chartChecks, requireNonEmpty, h]
  · intro h; simp [chartErrors, chartChecks, requireNonEmpty, h]
  · intro h; simp [chartErrors, chartChecks, requireNonEmpty, h]
  · intro h; simp [chartErrors, chartChecks, requireNonEmpty, h]
  · intro h
    exact validate_eq_some (chartChecks c) h
  · intro h; simp [insightErrors, insightChecks, requireNonEmpty, h]
  · intro h; simp [insightErrors, insightChecks, requireNonEmpty, h]
  · intro h; simp [audienceErrors, audienceChecks, requireNonEmpty, h]
  · intro h
    have : checkNonNegative "purchases_last_month" a.purchasesLastMonth =
        "purchases_last_month must not be negative" := by
      simp [checkNonNegative, h]
    simp [audienceErrors, audienceChecks, this]

/-- Witness for C7: a chart missing both axis titles reports both
violations at once, and a negative-purchases audience reports its
violation. -/
theorem validation_collects_all_violations_witness :
    "x_axis_title is required" ∈ chartErrors ⟨"c1", "T", "", "", none⟩ ∧
    "y_axis_title is required" ∈ chartErrors ⟨"c1", "T", "", "", none⟩ ∧
    validateChart ⟨"c1", "T", "", "", none⟩ =
      some ⟨chartErrors ⟨"c1", "T", "", "", none⟩⟩ ∧
    "purchases_last_month must not be negative" ∈
      audienceErrors ⟨"a1", [], [], [], "", -2⟩ :=
  ⟨(validation_collects_all_violations ⟨"c1", "T", "", "", none⟩ ⟨"", ""⟩
      ⟨"a1", [], [], [], "", -2⟩).2.2.1 (by decide),
   (validation_collects_all_violations ⟨"c1", "T", "", "", none⟩ ⟨"", ""⟩
      ⟨"a1", [], [], [], "", -2⟩).2.2.2.1 (by decide),
   (validation_collects_all_violations ⟨"c1", "T", "", "", none⟩ ⟨"", ""⟩
      ⟨"a1", [], [], [], "", -2⟩).2.2.2.2.1 (by decide),
   (validation_collects_all_violations ⟨"c1", "T", "", "", none⟩ ⟨"", ""⟩
      ⟨"a1", [], [], [], "", -2⟩).2.2.2.2.2.2.2.2.1 (by decide)⟩

/-- Looking up the key just set finds the value just set. -/
lemma lookup_assocSet_self {α β : Type} [BEq α] [LawfulBEq α]
    (k : α) (v : β) (l : List (α × β)) :
    List.lookup k (assocSet k v l) = some v := by
  induction l with
  | nil => simp [assocSet, List.lookup]
  | cons p rest ih =>
      obtain ⟨k', v'⟩ := p
      by_cases h : k' == k
      · simp [assocSet, h, List.lookup]
      · simp only [assocSet, h, Bool.false_eq_true, if_false, List.lookup]
        have : (k == k') = false := by
          cases hkk : k == k'
          · rfl
          · exact absurd (beq_of_eq (eq_of_beq hkk).symm) h
        simp [this, ih]

/-- A favourite record used by witnesses. -/
def favW : FavouriteAsset :=
  ⟨"c1", "u1", .chart, "d", 1, 1, .chart sampleChart⟩

/-- C3: on both backends, a create against an already-present composite
key (user, assetID) fails with AlreadyExists and leaves the store exactly
as it was; in particular create followed by create of the same key fails
on the second call with no side effect. -/
theorem duplicate_create_fails_with_already_exists
    (stM : MockStore) (stP : PgStore) (fav fav' : FavouriteAsset)
    (hu : fav'.userID = fav.userID) (hid : fav'.id = fav.id) :
    (∀ m, List.lookup fav.userID stM = some m → (List.lookup fav.id m).isSome = true →
        MockRepository.AddFavouriteInDB stM fav = (some .alreadyExists, stM)) ∧
    ((MockRepository.AddFavouriteInDB stM fav).1 = none →
        MockRepository.AddFavouriteInDB (MockRepository.AddFavouriteInDB stM fav).2 fav' =
          (some .alreadyExists, (MockRepository.AddFavouriteInDB stM fav).2)) ∧
    (stP.any (matchKey fav.userID fav.id) = true →
        PostgresRepository.AddFavouriteInDB stP fav = (some .alreadyExists, stP)) ∧
    ((PostgresRepository.AddFavouriteInDB stP fav).1 = none →
        PostgresRepository.AddFavouriteInDB (PostgresRepository.AddFavouriteInDB stP fav).2 fav' =
          (some .alreadyExists, (PostgresRepository.AddFavouriteInDB stP fav).2)) := by
  refine ⟨?_, ?_, ?_, ?_⟩
  · intro m hm hsome
    obtain ⟨x, hx⟩ := Option.isSome_iff_exists.mp hsome
    simp [MockRepository.AddFavouriteInDB, hm, hx]
  · intro h1
    rcases hL : List.lookup fav.id ((List.lookup fav.userID stM).getD []) with _ | x
    · have hst : (MockRepository.AddFavouriteInDB stM fav).2 =
          assocSet fav.userID (assocSet fav.id fav ((List.lookup fav.userID stM).getD [])) stM := by
        simp [MockRepository.AddFavouriteInDB, hL]
      rw [hst]
      simp [MockRepository.AddFavouriteInDB, hu, hid, lookup_assocSet_self]
    · simp [MockRepository.AddFavouriteInDB, hL] at h1
  · intro h
    simp [PostgresRepository.AddFavouriteInDB, h]
  · intro h1
    rcases hA : stP.any (matchKey fav.userID fav.id) with _ | _
    · have hst : (PostgresRepository.AddFavouriteInDB stP fav).2 =
          stP ++ [{ id := fav.id, userID := fav.userID, assetType := fav.assetType,
                    description := fav.description, data := marshalAsset fav.data,
                    createdAt := fav.createdAt, updatedAt := fav.updatedAt }] := by
        simp [PostgresRepository.AddFavouriteInDB, hA]
      rw [hst]
      simp [PostgresRepository.AddFavouriteInDB, List.any_append, matchKey, hu, hid]
    · simp [PostgresRepository.AddFavouriteInDB, hA] at h1

/-- Witness for C3: a concrete create-then-create of the same key fails
on the second call with AlreadyExists, on both backends, leaving the
store as the first create left it. -/
theorem duplicate_create_fails_with_already_exists_witness :
    MockRepository.AddFavouriteInDB
        (MockRepository.AddFavouriteInDB ([] : MockStore) favW).2 favW =
      (some .alreadyExists, (MockRepository.AddFavouriteInDB ([] : MockStore) favW).2) ∧
    PostgresRepository.AddFavouriteInDB
        (PostgresRepository.AddFavouriteInDB ([] : PgStore) favW).2 favW =
      (some .alreadyExists, (PostgresRepository.AddFavouriteInDB ([] : PgStore) favW).2) :=
  ⟨(duplicate_create_fails_with_already_exists [] [] favW favW rfl rfl).2.1 (by decide),
   (duplicate_create_fails_with_already_exists [] [] favW favW rfl rfl).2.2.2 (by decide)⟩

/-- A successful lookup yields an actual binding of the list. -/
lemma lookup_mem {α β : Type} [BEq α] [LawfulBEq α]
    {k : α} {v : β} {l : List (α × β)} (h : List.lookup k l = some v) :
    (k, v) ∈ l := by
  induction l with
  | nil => simp [List.lookup] at h
  | cons p rest ih =>
      obtain ⟨k', v'⟩ := p
      by_cases hk : k == k'
      · simp only [List.lookup, hk] at h
        obtain rfl := eq_of_beq hk
        obtain rfl : v' = v := by injection h
        exact List.mem_cons_self _ _
      · simp only [List.lookup] at h
        rw [Bool.of_not_eq_true hk] at h
        exact List.mem_cons_of_mem _ (ih h)

/-- Members of `assocSet k v l` are the new binding or old members. -/
lemma mem_assocSet {α β : Type} [BEq α] {x : α × β} {k : α} {v : β}
    {l : List (α × β)} (h : x ∈ assocSet k v l) : x = (k, v) ∨ x ∈ l := by
  induction l with
  | nil => simpa [assocSet] using h
  | cons p rest ih =>
      by_cases hk : p.1 == k
      · rcases p with ⟨k', v'⟩
        simp only [assocSet, hk, if_true] at h
        rcases List.mem_cons.mp h with h' | h'
        · exact Or.inl h'
        · exact Or.inr (List.mem_cons_of_mem _ h')
      · rcases p with ⟨k', v'⟩
        simp only [assocSet] at h
        rw [Bool.of_not_eq_true hk] at h
        simp only [Bool.false_eq_true, if_false] at h
        rcases List.mem_cons.mp h with h' | h'
        · exact Or.inr (h' ▸ List.mem_cons_self _ _)
        · rcases ih h' with h'' | h''
          · exact Or.inl h''
          · exact Or.inr (List.mem_cons_of_mem _ h'')

/-- Members of `assocErase k l` are members of `l`. -/
lemma mem_assocErase {α β : Type} [BEq α] {x : α × β} {k : α}
    {l : List (α × β)} (h : x ∈ assocErase k l) : x ∈ l := by
  induction l with
  | nil => simp [assocErase] at h
  | cons p rest ih =>
      rcases p with ⟨k', v'⟩
      by_cases hk : k' == k
      · simp only [assocErase, hk, if_true] at h
        exact List.mem_cons_of_mem _ h
      · simp only [assocErase] at h
        rw [Bool.of_not_eq_true hk] at h
        simp only [Bool.false_eq_true, if_false] at h
        rcases List.mem_cons.mp h with h' | h'
        · exact h' ▸ List.mem_cons_self _ _
        · exact List.mem_cons_of_mem _ (ih h')

/-- The key-consistency invariant of the mock store: every record sits
under exactly its own (owner user id, asset id) keys. -/
def MockInv (st : MockStore) : Prop :=
  ∀ p ∈ st, ∀ q ∈ p.2, q.2.userID = p.1 ∧ q.2.id = q.1

/-- The inner map the mock reads for a user satisfies the inner half of
the invariant. -/
lemma mockInv_inner {st : MockStore} (hInv : MockInv st) (u : String) :
    ∀ q ∈ (List.lookup u st).getD [], q.2.userID = u ∧ q.2.id = q.1 := by
  intro q hq
  rcases hL : List.lookup u st with _ | m
  · rw [hL] at hq; simp at hq
  · rw [hL] at hq
    exact hInv (u, m) (lookup_mem hL) q hq

/-- C10: the mock store's key-consistency invariant — every stored record
has owner_user_id equal to its user key and asset id equal to its asset
key — holds for the empty initial state and is preserved by add, update
and delete. -/
theorem mock_store_key_invariant :
    MockInv [] ∧
    (∀ st fav, MockInv st → MockInv (MockRepository.AddFavouriteInDB st fav).2) ∧
    (∀ st fav, MockInv st → MockInv (MockRepository.UpdateFavouriteInDB st fav).2) ∧
    (∀ st u a, MockInv st → MockInv (MockRepository.DeleteFavouriteFromDB st u a).2) := by
  refine ⟨by simp [MockInv], ?_, ?_, ?_⟩
  · intro st fav hInv
    rcases hL : List.lookup fav.id ((List.lookup fav.userID st).getD []) with _ | x
    · have hst : (MockRepository.AddFavouriteInDB st fav).2 =
          assocSet fav.userID
            (assocSet fav.id fav ((List.lookup fav.userID st).getD [])) st := by
        simp [MockRepository.AddFavouriteInDB, hL]
      rw [hst]
      intro p hp q hq
      rcases mem_assocSet hp with rfl | hp'
      · rcases mem_assocSet hq with rfl | hq'
        · exact ⟨rfl, rfl⟩
        · exact mockInv_inner hInv fav.userID q hq'
      · exact hInv p hp' q hq
    · have hst : (MockRepository.AddFavouriteInDB st fav).2 = st := by
        simp [MockRepository.AddFavouriteInDB, hL]
      rw [hst]; exact hInv
  · intro st fav hInv
    rcases hU : List.lookup fav.userID st with _ | m
    · have hst : (MockRepository.UpdateFavouriteInDB st fav).2 = st := by
        simp [MockRepository.UpdateFavouriteInDB, hU]
      rw [hst]; exact hInv
    · rcases hL : List.lookup fav.id m with _ | x
      · have hst : (MockRepository.UpdateFavouriteInDB st fav).2 = st := by
          simp [MockRepository.UpdateFavouriteInDB, hU, hL]
        rw [hst]; exact hInv
      · have hst : (MockRepository.UpdateFavouriteInDB st fav).2 =
            assocSet fav.userID (assocSet fav.id fav m) st := by
          simp [MockRepository.UpdateFavouriteInDB, hU, hL]
        rw [hst]
        intro p hp q hq
        rcases mem_assocSet hp with rfl | hp'
        · rcases mem_assocSet hq with rfl | hq'
          · exact ⟨rfl, rfl⟩
          · exact hInv (fav.userID, m) (lookup_mem hU) q hq'
        · exact hInv p hp' q hq
  · intro st u a hInv
    rcases hU : List.lookup u st with _ | m
    · have hst : (MockRepository.DeleteFavouriteFromDB st u a).2 = st := by
        simp [MockRepository.DeleteFavouriteFromDB, hU]
      rw [hst]; exact hInv
    · rcases hL : List.lookup a m with _ | x
      · have hst : (MockRepository.DeleteFavouriteFromDB st u a).2 = st := by
          simp [MockRepository.DeleteFavouriteFromDB, hU, hL]
        rw [hst]; exact hInv
      · have hst : (MockRepository.DeleteFavouriteFromDB st u a).2 =
            assocSet u (assocErase a m) st := by
          simp [MockRepository.DeleteFavouriteFromDB, hU, hL]
        rw [hst]
        intro p hp q hq
        rcases mem_assocSet hp with rfl | hp'
        · exact hInv (u, m) (lookup_mem hU) q (mem_assocErase hq)
        · exact hInv p hp' q hq

/-- Witness for C10: the invariant holds after a concrete add to the
empty store. -/
theorem mock_store_key_invariant_witness :
    MockInv (MockRepository.AddFavouriteInDB ([] : MockStore) favW).2 :=
  mock_store_key_invariant.2.1 [] favW (by simp [MockInv])

/-- Modelled from the spec: "ordered sequence … (newest-created first)"
as a predicate on the created_at timestamps of a returned sequence. -/
def sortedDescNat (l : List Nat) : Prop :=
  l.Pairwise (fun a b => b ≤ a)

/-- Members of an insertion are the inserted row or old members. -/
lemma mem_insertByCreatedDesc {y row : Row} {l : List Row}
    (h : y ∈ insertByCreatedDesc row l) : y = row ∨ y ∈ l := by
  induction l with
  | nil => simpa [insertByCreatedDesc] using h
  | cons x xs ih =>
      by_cases hc : row.createdAt ≤ x.createdAt
      · simp only [insertByCreatedDesc, hc, if_true] at h
        rcases List.mem_cons.mp h with h' | h'
        · exact Or.inr (h' ▸ List.mem_cons_self _ _)
        · rcases ih h' with h'' | h''
          · exact Or.inl h''
          · exact Or.inr (List.mem_cons_of_mem _ h'')
      · simp only [insertByCreatedDesc, hc, if_false] at h
        rcases List.mem_cons.mp h with h' | h'
        · exact Or.inl h'
        · exact Or.inr h'

/-- Insertion preserves descending created_at order. -/
lemma pairwise_insertByCreatedDesc {row : Row} {l : List Row}
    (h : l.Pairwise (fun a b => b.createdAt ≤ a.createdAt)) :
    (insertByCreatedDesc row l).Pairwise (fun a b => b.createdAt ≤ a.createdAt) := by
  induction l with
  | nil => simp [insertByCreatedDesc]
  | cons x xs ih =>
      rcases List.pairwise_cons.mp h with ⟨hx, hxs⟩
      by_cases hc : row.createdAt ≤ x.createdAt
      · simp only [insertByCreatedDesc, hc, if_true]
        refine List.pairwise_cons.mpr ⟨?_, ih hxs⟩
        intro y hy
        rcases mem_insertByCreatedDesc hy with rfl | hy'
        · exact hc
        · exact hx y hy'
      · simp only [insertByCreatedDesc, hc, if_false]
        refine List.pairwise_cons.mpr ⟨?_, h⟩
        intro y hy
        rcases List.mem_cons.mp hy with rfl | hy'
        · exact Nat.le_of_lt (Nat.lt_of_not_le hc)
        · exact Nat.le_trans (hx y hy') (Nat.le_of_lt (Nat.lt_of_not_le hc))

/-- The modelled ORDER BY really sorts descending by created_at. -/
lemma sorted_sortByCreatedDesc (l : List Row) :
    (sortByCreatedDesc l).Pairwise (fun a b => b.createdAt ≤ a.createdAt) := by
  induction l with
  | nil => simp [sortByCreatedDesc]
  | cons x xs ih => exact pairwise_insertByCreatedDesc ih

/-- A successfully scanned record copies the row's scalar columns. -/
lemma scanFavourite_ok {row : Row} {fav : FavouriteAsset}
    (h : scanFavourite row = .ok fav) :
    fav.id = row.id ∧ fav.userID = row.userID ∧ fav.description = row.description ∧
      fav.createdAt = row.createdAt ∧ fav.updatedAt = row.updatedAt := by
  unfold scanFavourite at h
  rcases hU : unmarshalAssetData row.assetType row.data with e | a
  · rw [hU] at h; cases h
  · rw [hU] at h
    obtain rfl : _ = fav := by injection h
    exact ⟨rfl, rfl, rfl, rfl, rfl⟩

/-- Scanning preserves the created_at sequence of the result set. -/
lemma scanAll_createdAt {rows : List Row} {favs : List FavouriteAsset}
    (h : scanAll rows = .ok favs) :
    favs.map (fun f => f.createdAt) = rows.map (fun r => r.createdAt) := by
  induction rows generalizing favs with
  | nil =>
      obtain rfl : [] = favs := by injection h
      rfl
  | cons row rest ih =>
      unfold scanAll at h
      rcases hS : scanFavourite row with e | fav
      · rw [hS] at h; cases h
      · rw [hS] at h
        rcases hR : scanAll rest with e | favs'
        · rw [hR] at h; cases h
        · rw [hR] at h
          obtain rfl : fav :: favs' = favs := by injection h
          simp only [List.map]
          rw [(scanFavourite_ok hS).2.2.2.1, ih hR]

/-- Rows used by the C2 witness and counterexample. -/
def rowA : Row := ⟨"a1", "u1", .chart, "d", marshalAsset (.chart sampleChart), 1, 1⟩

/-- Second, newer row for the same user. -/
def rowB : Row := ⟨"b1", "u1", .chart, "d", marshalAsset (.chart sampleChart), 2, 2⟩

/-- The record rowA reconstructs to. -/
def favAr : FavouriteAsset := ⟨"a1", "u1", .chart, "d", 1, 1, .chart sampleChart⟩

/-- The record rowB reconstructs to. -/
def favBr : FavouriteAsset := ⟨"b1", "u1", .chart, "d", 2, 2, .chart sampleChart⟩

/-- C2 (amended): the relational backend returns the user's records
newest-created first and returns the empty sequence — never an error —
for a user with no rows; the in-memory reference backend also returns the
empty sequence, never an error, for an unknown user, but returns records
in map-iteration order with no ordering guarantee. -/
theorem list_favourites_semantics (r : PgStore) (st : MockStore) (u : String) :
    (∀ favs, PostgresRepository.GetUserFavouritesFromDB r u = .ok favs →
        sortedDescNat (favs.map (fun f => f.createdAt))) ∧
    ((∀ row ∈ r, row.userID ≠ u) →
        PostgresRepository.GetUserFavouritesFromDB r u = .ok []) ∧
    (List.lookup u st = none → MockRepository.GetUserFavouritesFromDB st u = []) := by
  refine ⟨?_, ?_, ?_⟩
  · intro favs h
    unfold sortedDescNat
    rw [scanAll_createdAt h]
    exact List.pairwise_map.mpr (sorted_sortByCreatedDesc _)
  · intro hnone
    have hf : r.filter (fun row => row.userID == u) = [] := by
      rw [List.filter_eq_nil_iff]
      intro a ha
      simpa using hnone a ha
    simp [PostgresRepository.GetUserFavouritesFromDB, hf, sortByCreatedDesc, scanAll]
  · intro h
    simp [MockRepository.GetUserFavouritesFromDB, h]

/-- Witness for C2's amended theorem: a concrete two-row table comes back
newest first from the relational backend, and both backends return the
empty sequence for an unknown user. -/
theorem list_favourites_semantics_witness :
    sortedDescNat ([favBr, favAr].map (fun f => f.createdAt)) ∧
    PostgresRepository.GetUserFavouritesFromDB ([] : PgStore) "u1" = .ok [] ∧
    MockRepository.GetUserFavouritesFromDB ([] : MockStore) "u1" = [] :=
  ⟨(list_favourites_semantics [rowA, rowB] [] "u1").1 [favBr, favAr] rfl,
   (list_favourites_semantics [] [] "u1").2.1 (by simp),
   (list_favourites_semantics [] [] "u1").2.2 rfl⟩

/-- The mock store after adding favAr (created at 1) then favBr
(created at 2) for the same user. -/
def stAB : MockStore :=
  (MockRepository.AddFavouriteInDB
    (MockRepository.AddFavouriteInDB ([] : MockStore) favAr).2 favBr).2

/-- C2 counterexample: the in-memory reference backend does not order by
created_at — after creating an older then a newer favourite, list returns
them oldest first (timestamps [1, 2]), violating newest-created-first. -/
theorem mock_list_not_newest_first :
    (MockRepository.GetUserFavouritesFromDB stAB "u1").map (fun f => f.createdAt) = [1, 2] ∧
    ¬ sortedDescNat [1, 2] := by
  refine ⟨by decide, ?_⟩
  intro h
  rcases List.pairwise_cons.mp h with ⟨h12, _⟩
  have := h12 2 (by simp)
  omega

/-- C5: the gate's three configured modes. Signed mode (non-empty secret)
rejects every token whose declared algorithm is "none" and accepts every
correctly HMAC-SHA256-signed, unexpired token with a non-empty subject;
Unsigned-allowed mode (empty secret, opt-in set) rejects every token whose
declared algorithm is not "none" and accepts every structurally valid
unsigned token with a non-empty subject; Locked mode (empty secret, no
opt-in) rejects every token regardless of content. -/
theorem auth_gate_modes (hmac : String → String → String) (now : Nat)
    (cfg : AuthConfig) (tok : Token) :
    (cfg.secret ≠ "" → tok.alg = "none" →
        isAccepted (authenticate hmac now cfg tok) = false) ∧
    (cfg.secret ≠ "" → tok.structValid = true → tok.alg = "HS256" →
        tok.signature = some (hmac cfg.secret tok.signingInput) →
        (∀ e, tok.exp = some e → now < e) →
        ∀ s, tok.sub = some s → s ≠ "" →
        authenticate hmac now cfg tok = .ok s) ∧
    (cfg.secret = "" → cfg.allowUnsignedTokens = true → tok.alg ≠ "none" →
        isAccepted (authenticate hmac now cfg tok) = false) ∧
    (cfg.secret = "" → cfg.allowUnsignedTokens = true → tok.structValid = true →
        tok.alg = "none" → ∀ s, tok.sub = some s → s ≠ "" →
        authenticate hmac now cfg tok = .ok s) ∧
    (cfg.secret = "" → cfg.allowUnsignedTokens = false →
        isAccepted (authenticate hmac now cfg tok) = false) := by
  refine ⟨?_, ?_, ?_, ?_, ?_⟩
  · intro h halg
    have hs : (cfg.secret == "") = false := beq_eq_false_iff_ne.mpr h
    cases hv : tok.structValid <;>
      simp [authenticate, parseToken, isAccepted, hs, halg, hv]
  · intro h hv halg hsig hexp s hsub hsne
    have hs : (cfg.secret == "") = false := beq_eq_false_iff_ne.mpr h
    have hsb : (s == "") = false := beq_eq_false_iff_ne.mpr hsne
    have hsigb : (tok.signature != some (hmac cfg.secret tok.signingInput)) = false := by
      simp [hsig]
    rcases hE : tok.exp with _ | e
    · simp [authenticate, parseToken, hs, hv, halg, hsigb, hE, hsub, hsb]
    · have he := hexp e hE
      simp [authenticate, parseToken, hs, hv, halg, hsigb, hE, he, hsub, hsb]
  · intro h0 ha halg
    have hb : (tok.alg == "none") = false := beq_eq_false_iff_ne.mpr halg
    cases hv : tok.structValid <;>
      simp [authenticate, parseToken, isAccepted, h0, ha, hb, hv, halg]
  · intro h0 ha hv halg s hsub hsne
    have hsb : (s == "") = false := beq_eq_false_iff_ne.mpr hsne
    simp [authenticate, parseToken, h0, ha, hv, halg, hsub, hsb]
  · intro h0 ha
    simp [authenticate, isAccepted, h0, ha]

/-- A stand-in signing function for witnesses (the gate treats signing
opaquely, so any function instantiates the theorems). -/
def hmacW (secret payload : String) : String := secret ++ ":" ++ payload

/-- A correctly signed, unexpired token with subject "alice". -/
def tokS : Token := ⟨"HS256", some "alice", some 10, "inp", some (hmacW "k" "inp"), true⟩

/-- A structurally valid unsigned token with subject "bob". -/
def tokU : Token := ⟨"none", some "bob", none, "x", none, true⟩

/-- Witness for C5: a concrete signed-mode acceptance, unsigned-mode
acceptance, locked-mode rejection, and rejection of an unsigned token in
signed mode. -/
theorem auth_gate_modes_witness :
    authenticate hmacW 5 ⟨"k", false⟩ tokS = .ok "alice" ∧
    authenticate hmacW 5 ⟨"", true⟩ tokU = .ok "bob" ∧
    isAccepted (authenticate hmacW 5 ⟨"", false⟩ tokU) = false ∧
    isAccepted (authenticate hmacW 5 ⟨"k", false⟩ tokU) = false :=
  ⟨(auth_gate_modes hmacW 5 ⟨"k", false⟩ tokS).2.1 (by decide) rfl rfl rfl
      (by intro e he; injection he with h2; omega) "alice" rfl (by decide),
   (auth_gate_modes hmacW 5 ⟨"", true⟩ tokU).2.2.2.1 rfl rfl rfl rfl "bob" rfl (by decide),
   (auth_gate_modes hmacW 5 ⟨"", false⟩ tokU).2.2.2.2 rfl rfl,
   (auth_gate_modes hmacW 5 ⟨"k", false⟩ tokU).1 (by decide) rfl⟩

/-- C9: in Unsigned-allowed mode the gate validates no claims beyond a
non-empty subject — a structurally valid alg=none token is accepted even
when its exp claim lies strictly in the past. -/
theorem unsigned_mode_ignores_expiry (hmac : String → String → String)
    (now : Nat) (tok : Token) (s : String) (e : Nat)
    (hv : tok.structValid = true) (halg : tok.alg = "none")
    (hsub : tok.sub = some s) (hsne : s ≠ "")
    (_hexp : tok.exp = some e) (_hpast : e < now) :
    authenticate hmac now ⟨"", true⟩ tok = .ok s := by
  have hsb : (s == "") = false := beq_eq_false_iff_ne.mpr hsne
  simp [authenticate, parseToken, hv, halg, hsub, hsb]

/-- An expired unsigned token with subject "bob". -/
def tokUExp : Token := ⟨"none", some "bob", some 1, "x", none, true⟩

/-- Witness for C9: a concrete unsigned token whose exp (1) is before now
(5) is still accepted. -/
theorem unsigned_mode_ignores_expiry_witness :
    authenticate hmacW 5 ⟨"", true⟩ tokUExp = .ok "bob" :=
  unsigned_mode_ignores_expiry hmacW 5 tokUExp "bob" 1 rfl rfl rfl (by decide) rfl
    (by decide)

/-- Every string is a substring of itself under the Go check. -/
lemma containsStr_self (s : String) : containsStr s s = true := by
  simp [containsStr]

/-- C6: the favourites middleware applies in the fixed order
authentication → per-identity rate limit → Accept negotiation →
Content-Type enforcement, each short-circuiting with 401 / 429 / 406 /
415; an Accept header containing neither application/json nor the
wildcard is rejected 406; Content-Type is enforced only on the
body-bearing methods, never on GET or DELETE. -/
theorem favourites_pipeline_order (hmac : String → String → String) (now : Nat)
    (cfg : AuthConfig) (rateEnabled : Bool) (rateExceeded : String → Bool)
    (req : Request) :
    (isAccepted (authenticate hmac now cfg req.token) = false →
        pipeline hmac now cfg rateEnabled rateExceeded req = .unauthorized) ∧
    (∀ uid, authenticate hmac now cfg req.token = .ok uid →
        rateEnabled = true → rateExceeded uid = true →
        pipeline hmac now cfg rateEnabled rateExceeded req = .tooManyRequests) ∧
    (∀ uid, authenticate hmac now cfg req.token = .ok uid →
        (rateEnabled && rateExceeded uid) = false →
        containsStr req.accept "application/json" = false →
        containsStr req.accept "*/*" = false →
        pipeline hmac now cfg rateEnabled rateExceeded req = .notAcceptable) ∧
    (∀ uid, authenticate hmac now cfg req.token = .ok uid →
        (rateEnabled && rateExceeded uid) = false →
        acceptsJSON req.accept = true →
        (req.method = .post ∨ req.method = .patch) →
        isJSONContentType req.contentType = false →
        pipeline hmac now cfg rateEnabled rateExceeded req = .unsupportedMediaType) ∧
    ((req.method = .get ∨ req.method = .delete) →
        pipeline hmac now cfg rateEnabled rateExceeded req ≠ .unsupportedMediaType) := by
  refine ⟨?_, ?_, ?_, ?_, ?_⟩
  · intro h
    rcases hA : authenticate hmac now cfg req.token with e | uid
    · simp [pipeline, hA]
    · rw [hA] at h; simp [isAccepted] at h
  · intro uid hA hre hrx
    simp [pipeline, hA, hre, hrx]
  · intro uid hA hr hjson hwild
    have h1 : (req.accept == "*/*") = false := by
      by_cases hb : req.accept = "*/*"
      · rw [hb, containsStr_self] at hwild; cases hwild
      · exact beq_eq_false_iff_ne.mpr hb
    have h2 : (req.accept == "application/json") = false := by
      by_cases hb : req.accept = "application/json"
      · rw [hb, containsStr_self] at hjson; cases hjson
      · exact beq_eq_false_iff_ne.mpr hb
    have hacc : acceptsJSON req.accept = false := by
      simp [acceptsJSON, h1, h2, hjson, hwild]
    simp [pipeline, hA, hr, hacc]
  · intro uid hA hr hacc hm hct
    have hne : (req.accept == "") = false := by
      by_cases hb : req.accept = ""
      · rw [hb] at hacc; exact absurd hacc (by decide)
      · exact beq_eq_false_iff_ne.mpr hb
    rcases hm with hm | hm <;> simp [pipeline, hA, hr, hne, hacc, hm, hct]
  · intro hm
    rcases hA : authenticate hmac now cfg req.token with e | uid
    · simp [pipeline, hA]
    · by_cases hr : (rateEnabled && rateExceeded uid) = true
      · simp [pipeline, hA, hr]
      · have hr' : (rateEnabled && rateExceeded uid) = false := by
          simpa using hr
        by_cases hacc : (req.accept == "" || !acceptsJSON req.accept) = true
        · simp [pipeline, hA, hr', hacc]
        · have hacc' : (req.accept == "" || !acceptsJSON req.accept) = false := by
            simpa using hacc
          rcases hm with hm | hm <;> simp [pipeline, hA, hr', hacc', hm]

/-- A token without a subject claim, rejected by the gate. -/
def tokNoSub : Token := ⟨"HS256", none, none, "inp", some (hmacW "k" "inp"), true⟩

/-- Witness for C6: concrete requests exercising each short-circuit and a
GET that can never be rejected for Content-Type. -/
theorem favourites_pipeline_order_witness :
    pipeline hmacW 5 ⟨"k", false⟩ true (fun _ => false)
        ⟨.get, tokNoSub, "application/json", ""⟩ = .unauthorized ∧
    pipeline hmacW 5 ⟨"k", false⟩ true (fun _ => true)
        ⟨.get, tokS, "application/json", ""⟩ = .tooManyRequests ∧
    pipeline hmacW 5 ⟨"k", false⟩ true (fun _ => false)
        ⟨.get, tokS, "text/html", ""⟩ = .notAcceptable ∧
    pipeline hmacW 5 ⟨"k", false⟩ true (fun _ => false)
        ⟨.post, tokS, "application/json", "text/plain"⟩ = .unsupportedMediaType ∧
    pipeline hmacW 5 ⟨"k", false⟩ true (fun _ => false)
        ⟨.get, tokS, "application/json", "text/plain"⟩ ≠ .unsupportedMediaType :=
  ⟨(favourites_pipeline_order hmacW 5 ⟨"k", false⟩ true (fun _ => false)
        ⟨.get, tokNoSub, "application/json", ""⟩).1 (by decide),
   (favourites_pipeline_order hmacW 5 ⟨"k", false⟩ true (fun _ => true)
        ⟨.get, tokS, "application/json", ""⟩).2.1 "alice" rfl rfl rfl,
   (favourites_pipeline_order hmacW 5 ⟨"k", false⟩ true (fun _ => false)
        ⟨.get, tokS, "text/html", ""⟩).2.2.1 "alice" rfl rfl (by decide) (by decide),
   (favourites_pipeline_order hmacW 5 ⟨"k", false⟩ true (fun _ => false)
        ⟨.post, tokS, "application/json", "text/plain"⟩).2.2.2.1 "alice" rfl rfl
        (by decide) (Or.inl rfl) (by decide),
   (favourites_pipeline_order hmacW 5 ⟨"k", false⟩ true (fun _ => false)
        ⟨.get, tokS, "application/json", "text/plain"⟩).2.2.2.2 (Or.inl rfl)⟩

/-- If nothing in the first list matches, find? over the concatenation is
find? over the second list. -/
lemma find?_append_none {α : Type} {p : α → Bool} {l1 l2 : List α}
    (h : l1.find? p = none) : (l1 ++ l2).find? p = l2.find? p := by
  induction l1 with
  | nil => rfl
  | cons x xs ih =>
      rcases hp : p x with _ | _
      · simp only [List.find?_cons, hp] at h
        simp only [List.cons_append, List.find?_cons, hp]
        exact ih h
      · simp [List.find?_cons, hp] at h

/-- A false `any` means find? comes up empty. -/
lemma find?_eq_none_of_any_false {α : Type} {p : α → Bool} {l : List α}
    (h : l.any p = false) : l.find? p = none := by
  rw [List.find?_eq_none]
  intro x hx hpx
  have h2 := List.any_eq_true.mpr ⟨x, hx, hpx⟩
  rw [h] at h2
  exact Bool.noConfusion h2

/-- C8: round-trip of the (de)serialization layer — any asset marshalled
on create and unmarshalled under its stored type tag yields the original
payload; consequently a successful create followed by a get on the
relational backend returns a record whose payload equals the created
asset. -/
theorem asset_serialization_roundtrip :
    (∀ a : Asset, unmarshalAssetData a.GetType (marshalAsset a) = .ok a) ∧
    (∀ (st : PgStore) (u : String) (asset : Asset) (desc : String) (now : Nat),
        st.any (matchKey u asset.GetID) = false →
        (AddFavourite pgRepo st u asset desc now).1 = none →
        PostgresRepository.GetFavouriteFromDB
            (AddFavourite pgRepo st u asset desc now).2 u asset.GetID =
          .ok ⟨asset.GetID, u, asset.GetType, desc, now, now, asset⟩) := by
  refine ⟨unmarshal_marshal, ?_⟩
  intro st u asset desc now hAny hOk
  rcases hV : validateAsset asset with _ | v
  · have hadd : AddFavourite pgRepo st u asset desc now =
        (none, st ++ [{ id := asset.GetID, userID := u, assetType := asset.GetType,
                        description := desc, data := marshalAsset asset,
                        createdAt := now, updatedAt := now }]) := by
      simp [AddFavourite, hV, pgRepo, PostgresRepository.AddFavouriteInDB, hAny]
    rw [hadd]
    unfold PostgresRepository.GetFavouriteFromDB
    rw [find?_append_none (find?_eq_none_of_any_false hAny)]
    simp only [List.find?_cons, matchKey, beq_self_eq_true, Bool.and_self]
    unfold scanFavourite
    simp only []
    rw [unmarshal_marshal]
  · exfalso
    simp [AddFavourite, hV] at hOk

/-- Witness for C8's store-level conjunct: a fully valid chart created on
the empty store and fetched back deserializes to the original payload. -/
theorem asset_serialization_roundtrip_witness :
    PostgresRepository.GetFavouriteFromDB
        (AddFavourite pgRepo ([] : PgStore) "u1" (.chart sampleChart) "d" 7).2 "u1"
        (Asset.chart sampleChart).GetID =
      .ok ⟨(Asset.chart sampleChart).GetID, "u1", (Asset.chart sampleChart).GetType,
           "d", 7, 7, .chart sampleChart⟩ :=
  asset_serialization_roundtrip.2 [] "u1" (.chart sampleChart) "d" 7 rfl rfl

/-- If the filter keeps exactly one element, find? returns it. -/
lemma find?_of_filter_singleton {α : Type} {p : α → Bool} {l : List α} {x : α}
    (h : l.filter p = [x]) : l.find? p = some x := by
  induction l with
  | nil => simp at h
  | cons z zs ih =>
      rcases hp : p z with _ | _
      · simp only [List.filter_cons, hp, Bool.false_eq_true, if_false] at h
        simp only [List.find?_cons, hp]
        exact ih h
      · simp only [List.filter_cons, hp, if_true] at h
        injection h with h1 h2
        subst h1
        simp [List.find?_cons, hp]

/-- If the filter keeps exactly one element, any matching member is it. -/
lemma eq_of_mem_filter_singleton {α : Type} {p : α → Bool} {l : List α} {x y : α}
    (h : l.filter p = [x]) (hy : y ∈ l) (hpy : p y = true) : y = x := by
  have hmem : y ∈ l.filter p := List.mem_filter.mpr ⟨hy, hpy⟩
  rw [h] at hmem
  simpa using hmem

/-- Re-writing the unchanged payload back is the identity on the data
column. -/
lemma row_rewrite_same_data {row : Row} {a : Asset}
    (h : row.data = marshalAsset a) (desc : String) (now : Nat) :
    ({ row with description := desc, data := marshalAsset a, updatedAt := now } : Row) =
      { row with description := desc, updatedAt := now } := by
  cases row
  simp only [] at h
  rw [← h]

/-- C4: a successful update-description on the relational backend sets
description and updated_at on the targeted record and touches nothing
else: created_at and the stored asset payload stay, every other row is
untouched, and updated_at strictly increases. The hypotheses say the key
matches exactly one row (the table's primary key guarantees this), the
row's blob is the marshalled form of its asset (true of every row the
create path writes), the new description is valid, and the clock has
advanced past the row's updated_at. -/
theorem update_changes_only_description_and_updated_at
    (r : PgStore) (row : Row) (a : Asset) (userID assetID desc : String) (now : Nat)
    (hfilter : r.filter (matchKey userID assetID) = [row])
    (hdata : row.data = marshalAsset a)
    (htype : row.assetType = a.GetType)
    (hdesc : validateDescription desc = none)
    (hclock : row.updatedAt < now) :
    (UpdateDescription pgRepo r userID assetID desc now).1 = none ∧
    (UpdateDescription pgRepo r userID assetID desc now).2 =
      r.map (fun x => if matchKey userID assetID x then
          { x with description := desc, updatedAt := now } else x) ∧
    row.updatedAt < now := by
  have hrowmem : row ∈ r.filter (matchKey userID assetID) := by
    rw [hfilter]; exact List.mem_cons_self _ _
  have hmemr : row ∈ r := (List.mem_filter.mp hrowmem).1
  have hprow : matchKey userID assetID row = true := (List.mem_filter.mp hrowmem).2
  obtain ⟨hbu, hbi⟩ : (row.userID == userID) = true ∧ (row.id == assetID) = true := by
    simpa [matchKey, Bool.and_eq_true] using hprow
  have hu : row.userID = userID := eq_of_beq hbu
  have hid : row.id = assetID := eq_of_beq hbi
  have hfind := find?_of_filter_singleton hfilter
  have hget : PostgresRepository.GetFavouriteFromDB r userID assetID =
      .ok ⟨row.id, row.userID, row.assetType, row.description,
           row.createdAt, row.updatedAt, a⟩ := by
    unfold PostgresRepository.GetFavouriteFromDB
    rw [hfind]
    show scanFavourite row = _
    unfold scanFavourite
    rw [hdata, htype, unmarshal_marshal]
  have hany : r.any (matchKey row.userID row.id) = true :=
    List.any_eq_true.mpr ⟨row, hmemr, by simp [matchKey]⟩
  have hupd : UpdateDescription pgRepo r userID assetID desc now =
      (none, r.map (fun x => if matchKey row.userID row.id x then
          { x with description := desc, data := marshalAsset a, updatedAt := now }
        else x)) := by
    simp only [UpdateDescription, hdesc, pgRepo]
    rw [hget]
    simp only [PostgresRepository.UpdateFavouriteInDB, hany, if_true]
  rw [hupd]
  refine ⟨rfl, ?_, hclock⟩
  rw [hu, hid]
  apply List.map_congr_left
  intro x hx
  by_cases hpx : matchKey userID assetID x = true
  · have hxeq : x = row := eq_of_mem_filter_singleton hfilter hx hpx
    subst hxeq
    rw [if_pos hpx, if_pos hpx]
    exact row_rewrite_same_data hdata desc now
  · rw [if_neg hpx, if_neg hpx]

/-- Witness for C4: a concrete one-row table updated at time 9 keeps
created_at and the payload, changes description and updated_at only, and
updated_at strictly increases from 1 to 9. -/
theorem update_changes_only_description_and_updated_at_witness :
    (UpdateDescription pgRepo [rowA] "u1" "a1" "new" 9).1 = none ∧
    (UpdateDescription pgRepo [rowA] "u1" "a1" "new" 9).2 =
      [rowA].map (fun x => if matchKey "u1" "a1" x then
          { x with description := "new", updatedAt := 9 } else x) ∧
    rowA.updatedAt < 9 :=
  update_changes_only_description_and_updated_at [rowA] rowA (.chart sampleChart)
    "u1" "a1" "new" 9 rfl rfl rfl (by decide) (by decide)

end Favourites
